import Mathlib

/-!
Verification of the blob-transfer client in `registry/blob.go` of
wadefelix/docker-registry-client.

The Go functions are shallowly embedded as Lean functions.  The shared
`Registry.Client` transport is an external collaborator: each embedded
function takes the outcome of its transport exchanges as explicit
parameters (an `Except GoError HttpResponse` per exchange, or an oracle
`Nat → Except GoError HttpResponse` indexed by the order in which the
requests are issued).  The functions that issue upload writes return the
list of issued write requests (the trace of `Client.Do` calls for PATCH
and PUT) together with the Go error result, so that properties about
"which requests are sent" can be stated and proved.

Bytes are modelled as `Nat`, byte slices as `List Nat`, digests and
repository names as `String`.
-/

namespace DockerRegistryClient

/-- An HTTP response as the client observes it: status code, headers
(an association list, Go canonicalisation of header names is not
modelled), the declared content length (`resp.ContentLength`, an
`int64` in Go, possibly `-1`), and the body bytes. -/
structure HttpResponse where
  statusCode : Nat := 200
  headers : List (String × String) := []
  contentLength : Int := 0
  body : List Nat := []
deriving Repr, DecidableEq

/-- A Go `error` value as far as this client inspects it:
`urlError e` models a `*url.Error` whose `Err` field is `e` (the wrapper
`http.Client` puts around round-trip errors), `httpStatusError resp`
models a `*HttpStatusError` carrying the offending `*http.Response`
(this repository's transport error type, produced outside blob.go), and
`other` is any error value the client never inspects further. -/
inductive GoError where
  | urlError : GoError → GoError
  | httpStatusError : HttpResponse → GoError
  | other : String → GoError
deriving Repr, DecidableEq

/-- Go `url.Values` restricted to what the client uses: the parsed query
of a URL as an association list of key/value pairs. -/
abbrev QueryValues := List (String × String)

/-- Go `url.Values.Get`-style lookup of every value bound to key `k`
(the map entry `v[k]`, a `[]string` in Go). -/
def queryGet (q : QueryValues) (k : String) : List String :=
  (q.filter (fun p => p.1 == k)).map (fun p => p.2)

/-- Go `url.Values.Set k v`: replace the entry for key `k` by the single
value `v`, leaving every other key's entry unchanged. -/
def querySet (q : QueryValues) (k v : String) : QueryValues :=
  (q.filter (fun p => p.1 != k)) ++ [(k, v)]

/-- A parsed `*url.URL` restricted to what the client uses: everything
before the query (scheme, host, path) is kept opaque in `base`, and the
query is kept parsed (`Query()` / `RawQuery = Encode()` round-trips are
modelled by working on the parsed form directly). -/
structure URL where
  base : String := ""
  query : QueryValues := []
deriving Repr, DecidableEq

/-- The three lines shared by `UploadBlob` and the finalizing write of
`UploadBlobChunked`:
`q := uploadUrl.Query(); q.Set("digest", digest.String()); uploadUrl.RawQuery = q.Encode()`. -/
def setDigestParam (u : URL) (d : String) : URL :=
  { u with query := querySet u.query "digest" d }

/-- One HTTP request issued through `Client.Do` (or built by
`http.NewRequest`): method, target URL, the headers explicitly set by
blob.go, and the body bytes. -/
structure Request where
  method : String
  url : URL
  headers : List (String × String)
  body : List Nat
deriving Repr, DecidableEq

/-- `chunkSize := 8096000` in `UploadBlobChunked`. -/
def chunkSize : Nat := 8096000

/-- Go slice expression `bs[a:b]`. -/
def goSlice (bs : List Nat) (a b : Nat) : List Nat :=
  (bs.drop a).take (b - a)

/-- Go `http.Header.Get k`: the first value stored for key `k`, or the
empty string when the header is absent. -/
def headerGet (hs : List (String × String)) (k : String) : String :=
  match hs.find? (fun p => p.1 == k) with
  | some p => p.2
  | none => ""

/-- Whether a string contains an ASCII control character (Go:
`stringContainsCTLByte`, `c < ' ' || c == 0x7f`). -/
def containsCtlChar (s : String) : Bool :=
  s.toList.any (fun c => c.toNat < 32 || c.toNat == 127)

/-- Split a character list at every occurrence of `c` (so that
rejoining the pieces with `c` restores the input); always returns at
least one piece. -/
def splitOnChar (c : Char) : List Char → List (List Char)
  | [] => [[]]
  | x :: xs =>
    match splitOnChar c xs with
    | [] => [[x]]
    | h :: t => if x = c then [] :: h :: t else (x :: h) :: t

/-- Go's `url.Parse`, modelled for the aspects the claims depend on:
parsing fails when the string contains an ASCII control character (Go
rejects these), and otherwise succeeds; in particular `url.Parse ""`
succeeds and returns an empty `&url.URL{}` (this is Go's actual
behaviour: the empty string is a valid relative URL reference).  The
part before the first `?` becomes `base` and the rest becomes the
parsed query (`RawQuery`, split on `&`, each pair split at the first
`=`).  Go also rejects some malformed percent-escapes; that failure
mode is subsumed here under "unparseable" and is not needed by any
claim, and percent-unescaping of keys and values is not modelled. -/
def goUrlParse (s : String) : Except GoError URL :=
  if containsCtlChar s then
    Except.error (GoError.other "net/url: invalid control character in URL")
  else
    match splitOnChar '?' s.toList with
    | [] => Except.ok { base := "", query := [] }
    | [b] => Except.ok { base := String.mk b, query := [] }
    | b :: rest =>
      let rawQuery := List.intercalate ['?'] rest
      let pairs := (splitOnChar '&' rawQuery).filterMap (fun kv =>
        if kv.isEmpty then none
        else match splitOnChar '=' kv with
          | [] => none
          | [k] => some (String.mk k, "")
          | k :: vs => some (String.mk k, String.mk (List.intercalate ['='] vs)))
      Except.ok { base := String.mk b, query := pairs }

/-- `initiateUpload`: POST to `/v2/{repository}/blobs/uploads/`, and on
success parse the `Location` response header with `url.Parse`.
`postResult` is the outcome of `registry.Client.Post`. -/
def initiateUpload (postResult : Except GoError HttpResponse) : Except GoError URL :=
  match postResult with
  | Except.error e => Except.error e
  | Except.ok resp => goUrlParse (headerGet resp.headers "Location")

/-- `UploadBlob`: initiate an upload session, attach the digest as a
query parameter to the session location, and issue one PUT carrying the
whole content.  `initResult` is the outcome of `initiateUpload`,
`doResult` the outcome of `registry.Client.Do` for the PUT.  Returns
the trace of issued write requests and the Go error result. -/
def UploadBlob (initResult : Except GoError URL) (doResult : Except GoError HttpResponse)
    (d : String) (content : List Nat) : List Request × Option GoError :=
  match initResult with
  | Except.error e => ([], some e)
  | Except.ok uploadUrl =>
    let u := setDigestParam uploadUrl d
    let req : Request :=
      { method := "PUT", url := u
        headers := [("Content-Type", "application/octet-stream")]
        body := content }
    match doResult with
    | Except.error e => ([req], some e)
    | Except.ok _ => ([req], none)

/-- The PATCH request built in iteration `ch` of the loop of
`UploadBlobChunked`: range `[ch*chunkSize, (ch+1)*chunkSize)`, body
`contBytes[rangeStart:rangeEnd]`, headers as set by the source. -/
def patchRequest (uploadUrl : URL) (contBytes : List Nat) (ch : Nat) : Request :=
  let rangeStart := ch * chunkSize
  let rangeEnd := rangeStart + chunkSize
  { method := "PATCH", url := uploadUrl
    headers := [("Content-Type", "application/octet-stream"),
                ("Content-Length", toString chunkSize),
                ("Content-Range", toString rangeStart ++ "-" ++ toString (rangeEnd - 1))]
    body := goSlice contBytes rangeStart rangeEnd }

/-- The loop `for ch := 0; ch < chunk; ch++` of `UploadBlobChunked`,
written as recursion on the number `n` of remaining iterations with
`ch` the current loop counter.  Each iteration issues one PATCH to the
(never reassigned) `uploadUrl`; a failed `Client.Do` returns its error
immediately.  The response of a successful `Client.Do` is only closed,
never read: the next iteration does not depend on it. -/
def runChunks (uploadUrl : URL) (doResult : Nat → Except GoError HttpResponse)
    (contBytes : List Nat) : Nat → Nat → List Request × Option GoError
  | _, 0 => ([], none)
  | ch, n + 1 =>
    let req := patchRequest uploadUrl contBytes ch
    match doResult ch with
    | Except.error e => ([req], some e)
    | Except.ok _ =>
      let rest := runChunks uploadUrl doResult contBytes (ch + 1) n
      (req :: rest.1, rest.2)

/-- The finalizing PUT of `UploadBlobChunked`: digest attached to the
session location, range `[chunk*chunkSize, contLength)`, body the
remaining bytes, `Content-Length` the remainder `contLength % chunkSize`. -/
def finalRequest (uploadUrl : URL) (d : String) (contBytes : List Nat) : Request :=
  let contLength := contBytes.length
  let chunk := contLength / chunkSize
  let lastChSize := contLength % chunkSize
  let rangeStart := chunk * chunkSize
  let rangeEnd := contLength
  { method := "PUT", url := setDigestParam uploadUrl d
    headers := [("Content-Type", "application/octet-stream"),
                ("Content-Length", toString lastChSize),
                ("Content-Range", toString rangeStart ++ "-" ++ toString (rangeEnd - 1))]
    body := goSlice contBytes rangeStart rangeEnd }

/-- `UploadBlobChunked`: if the content fits in one chunk, delegate to
`UploadBlob`; otherwise initiate a session and issue
`chunk = contLength / chunkSize` PATCH writes followed by one
finalizing PUT, all against the initial `uploadUrl` (the source never
reads a `Location` header from the intermediate responses).
`doResult i` is the outcome of the `i`-th `Client.Do` call (0-based,
counting PATCHes then the final PUT; in the single-shot branch the one
PUT is exchange 0). -/
def UploadBlobChunked (initResult : Except GoError URL)
    (doResult : Nat → Except GoError HttpResponse)
    (d : String) (contBytes : List Nat) : List Request × Option GoError :=
  let contLength := contBytes.length
  if contLength ≤ chunkSize then
    UploadBlob initResult (doResult 0) d contBytes
  else
    match initResult with
    | Except.error e => ([], some e)
    | Except.ok uploadUrl =>
      let chunk := contLength / chunkSize
      let r := runChunks uploadUrl doResult contBytes 0 chunk
      match r.2 with
      | some e => (r.1, some e)
      | none =>
        let req := finalRequest uploadUrl d contBytes
        match doResult chunk with
        | Except.error e => (r.1 ++ [req], some e)
        | Except.ok _ => (r.1 ++ [req], none)

/-- `HasBlob`: HEAD the blob URL.  With a nil error the result is
`resp.StatusCode == http.StatusOK`.  Otherwise the error is unwrapped
through the two type assertions `err.(*url.Error)` and
`urlErr.Err.(*HttpStatusError)`; a wrapped 404 yields `(false, nil)`
and everything else returns the original error.  `headResult` is the
outcome of `registry.Client.Head`. -/
def HasBlob (headResult : Except GoError HttpResponse) : Bool × Option GoError :=
  match headResult with
  | Except.ok resp => (resp.statusCode == 200, none)
  | Except.error err =>
    match err with
    | GoError.urlError inner =>
      match inner with
      | GoError.httpStatusError resp =>
        if resp.statusCode == 404 then (false, none) else (false, some err)
      | _ => (false, some err)
    | _ => (false, some err)

/-- `distribution.Descriptor` restricted to the fields blob.go sets:
digest and size.  The zero value `distribution.Descriptor{}` is
`{ digest := "", size := 0 }`. -/
structure Descriptor where
  digest : String := ""
  size : Int := 0
deriving Repr, DecidableEq

/-- `BlobMetadata`: HEAD the blob URL; on any error return the zero
Descriptor and that error unchanged, on success return the digest and
`resp.ContentLength`. -/
def BlobMetadata (d : String) (headResult : Except GoError HttpResponse) :
    Descriptor × Option GoError :=
  match headResult with
  | Except.error e => ({ digest := "", size := 0 }, some e)
  | Except.ok resp => ({ digest := d, size := resp.contentLength }, none)

/-- The possible outcomes of `registry.Client.Get` as Go's `http.Client`
documents them: an error with no response, an error that still carries a
response (a redirect-check failure), or a response with a nil error.
The impossible nil/nil combination is excluded by construction. -/
inductive GetOutcome where
  | failNoResp : GoError → GetOutcome
  | failWithResp : HttpResponse → GoError → GetOutcome
  | okResp : HttpResponse → GetOutcome
deriving Repr, DecidableEq

/-- Whether `registry.Client.Get` handed the caller a response body
stream (i.e. `resp != nil`). -/
def streamAcquired : GetOutcome → Bool
  | GetOutcome.failNoResp _ => false
  | GetOutcome.failWithResp _ _ => true
  | GetOutcome.okResp _ => true

/-- `GetBlobContent`: GET the blob URL, register
`defer resp.Body.Close()` whenever `resp != nil`, then drain the body
with `ioutil.ReadAll`.  `readFail` is the outcome of `ReadAll`
(`none` = success, in which case `ReadAll` returns exactly the body
bytes; `some e` = a mid-read failure).  The second component records
whether the body stream was closed when the function returned (the
deferred `Close` fires on every return path once registered). -/
def GetBlobContent (g : GetOutcome) (readFail : Option GoError) :
    Except GoError (List Nat) × Bool :=
  match g with
  | GetOutcome.failNoResp e => (Except.error e, false)
  | GetOutcome.failWithResp _ e => (Except.error e, true)
  | GetOutcome.okResp resp =>
    match readFail with
    | some e => (Except.error e, true)
    | none => (Except.ok resp.body, true)

/-! Helper lemmas about the query multimap. -/

theorem queryGet_querySet_ne (q : QueryValues) (k m v : String) (h : k ≠ m) :
    queryGet (querySet q m v) k = queryGet q k := by
  simp only [queryGet, querySet, List.filter_append, List.filter_filter, List.map_append]
  have h1 : List.filter (fun p => p.1 == k) [(m, v)] = ([] : QueryValues) := by
    cases hb : m == k with
    | true => exact absurd (eq_of_beq hb) (Ne.symm h)
    | false => simp [List.filter_cons, hb]
  have h2 : ∀ p : String × String, ((fun p => p.1 == k) p && (fun p => p.1 != m) p)
      = ((fun p => p.1 == k) p) := by
    intro p
    by_cases hp : p.1 = k
    · subst hp
      simp [h]
    · simp [hp]
  rw [h1, List.filter_congr (fun p _ => h2 p)]
  simp

theorem queryGet_querySet_self (q : QueryValues) (m v : String) :
    queryGet (querySet q m v) m = [v] := by
  simp only [queryGet, querySet, List.filter_append, List.filter_filter, List.map_append]
  have h2 : ∀ p : String × String, ((fun p => p.1 == m) p && (fun p => p.1 != m) p)
      = false := by
    intro p
    by_cases hp : p.1 = m
    · subst hp; simp
    · simp [hp]
  rw [List.filter_congr (fun p _ => h2 p)]
  simp [List.filter]

/-- C10: attaching the digest as a query parameter (the
`Query() / Set("digest", d) / Encode()` sequence shared by `UploadBlob`
and the finalizing write of `UploadBlobChunked`) preserves every query
parameter of the peer-returned location whose key is not `"digest"`,
binds key `"digest"` to exactly the digest string, and leaves the rest
of the URL unchanged. -/
theorem setDigestParam_preserves_query (u : URL) (d k : String) (hk : k ≠ "digest") :
    queryGet (setDigestParam u d).query k = queryGet u.query k ∧
    queryGet (setDigestParam u d).query "digest" = [d] ∧
    (setDigestParam u d).base = u.base :=
  ⟨queryGet_querySet_ne u.query k "digest" d hk,
   queryGet_querySet_self u.query "digest" d, rfl⟩

/-- Witness for C10 at a concrete URL carrying a session-state query
parameter. -/
theorem setDigestParam_preserves_query_witness :
    ("state" : String) ≠ "digest" ∧
    queryGet (setDigestParam ({ base := "https://r.example/v2/lib/blobs/uploads/abc", query := [("state", "xyz"), ("n", "1")] } : URL) "sha256:deadbeef").query "state" =
      queryGet ([("state", "xyz"), ("n", "1")] : QueryValues) "state" ∧
    queryGet (setDigestParam ({ base := "https://r.example/v2/lib/blobs/uploads/abc", query := [("state", "xyz"), ("n", "1")] } : URL) "sha256:deadbeef").query "digest" =
      ["sha256:deadbeef"] := by
  have h := setDigestParam_preserves_query
    ({ base := "https://r.example/v2/lib/blobs/uploads/abc", query := [("state", "xyz"), ("n", "1")] } : URL)
    "sha256:deadbeef" "state" (by decide)
  exact ⟨by decide, h.1, h.2.1⟩

/-- C5: the existence check.  A plain 404 response and a 404 wrapped as
`*url.Error{Err: *HttpStatusError}` (the transport's wrapper, which
`HasBlob` unwraps by two type assertions) both yield `(false, nil)`; a
200 response yields `(true, nil)`; a wrapped non-404 status and any
error that is not a wrapped status both return the original non-nil
error. -/
theorem hasBlob_three_outcomes :
    (∀ resp : HttpResponse, resp.statusCode = 404 →
      HasBlob (Except.ok resp) = (false, none)) ∧
    (∀ resp : HttpResponse, resp.statusCode = 404 →
      HasBlob (Except.error (GoError.urlError (GoError.httpStatusError resp)))
        = (false, none)) ∧
    (∀ resp : HttpResponse, resp.statusCode = 200 →
      HasBlob (Except.ok resp) = (true, none)) ∧
    (∀ resp : HttpResponse, resp.statusCode ≠ 404 →
      HasBlob (Except.error (GoError.urlError (GoError.httpStatusError resp)))
        = (false, some (GoError.urlError (GoError.httpStatusError resp)))) ∧
    (∀ e : GoError, (∀ resp : HttpResponse, e ≠ GoError.urlError (GoError.httpStatusError resp)) →
      HasBlob (Except.error e) = (false, some e)) := by
  refine ⟨?_, ?_, ?_, ?_, ?_⟩
  · intro resp h; simp [HasBlob, h]
  · intro resp h; simp [HasBlob, h]
  · intro resp h; simp [HasBlob, h]
  · intro resp h; simp [HasBlob, h]
  · intro e he
    match e with
    | GoError.urlError (GoError.httpStatusError resp) => exact absurd rfl (he resp)
    | GoError.urlError (GoError.urlError e) => rfl
    | GoError.urlError (GoError.other s) => rfl
    | GoError.httpStatusError resp => rfl
    | GoError.other s => rfl

/-- Witness for C5: all five outcomes at concrete responses and errors. -/
theorem hasBlob_three_outcomes_witness :
    HasBlob (Except.ok { statusCode := 404 }) = (false, none) ∧
    HasBlob (Except.error (GoError.urlError (GoError.httpStatusError { statusCode := 404 })))
      = (false, none) ∧
    HasBlob (Except.ok { statusCode := 200 }) = (true, none) ∧
    HasBlob (Except.error (GoError.urlError (GoError.httpStatusError { statusCode := 500 })))
      = (false, some (GoError.urlError (GoError.httpStatusError { statusCode := 500 }))) ∧
    HasBlob (Except.error (GoError.other "dial tcp: connection refused"))
      = (false, some (GoError.other "dial tcp: connection refused")) := by
  refine ⟨hasBlob_three_outcomes.1 _ rfl, hasBlob_three_outcomes.2.1 _ rfl,
    hasBlob_three_outcomes.2.2.1 _ rfl, hasBlob_three_outcomes.2.2.2.1 _ (by decide), ?_⟩
  exact hasBlob_three_outcomes.2.2.2.2 _ (fun resp h => GoError.noConfusion h)

/-- C8: the metadata probe returns, on success, a Descriptor carrying
the digest and the response's declared content length, and on any error
(with no not-found distinction) the zero Descriptor together with that
error unchanged. -/
theorem blobMetadata_spec :
    (∀ (d : String) (resp : HttpResponse),
      BlobMetadata d (Except.ok resp) = ({ digest := d, size := resp.contentLength }, none)) ∧
    (∀ (d : String) (e : GoError),
      BlobMetadata d (Except.error e) = ({ digest := "", size := 0 }, some e)) :=
  ⟨fun _ _ => rfl, fun _ _ => rfl⟩

/-- C7: `GetBlobContent` closes the response stream on every exit path
once it was acquired (the deferred `Close` is registered whenever
`resp != nil`, before the error is even inspected), and on success the
returned buffer is exactly the response body. -/
theorem getBlobContent_closes_and_preserves :
    (∀ (g : GetOutcome) (readFail : Option GoError),
      streamAcquired g = true → (GetBlobContent g readFail).2 = true) ∧
    (∀ resp : HttpResponse,
      GetBlobContent (GetOutcome.okResp resp) none = (Except.ok resp.body, true)) := by
  constructor
  · intro g readFail h
    cases g with
    | failNoResp e => simp [streamAcquired] at h
    | failWithResp resp e => rfl
    | okResp resp => cases readFail <;> rfl
  · intro resp; rfl

/-- Witness for C7: the stream is closed on an error path and on the
success path, and a concrete body is returned intact. -/
theorem getBlobContent_closes_and_preserves_witness :
    streamAcquired (GetOutcome.okResp { body := [7, 8, 9] }) = true ∧
    (GetBlobContent (GetOutcome.okResp { body := [7, 8, 9] })
      (some (GoError.other "unexpected EOF"))).2 = true ∧
    GetBlobContent (GetOutcome.okResp { body := [7, 8, 9] }) none
      = (Except.ok [7, 8, 9], true) :=
  ⟨rfl, getBlobContent_closes_and_preserves.1 _ (some (GoError.other "unexpected EOF")) rfl,
   getBlobContent_closes_and_preserves.2 { body := [7, 8, 9] }⟩

/-- Counterexample for C4: a response whose header list has no
`Location` entry at all makes `initiateUpload` succeed (Go's
`Header.Get` returns the empty string and `url.Parse ""` succeeds,
returning an empty URL), instead of returning a failure. -/
theorem initiateUpload_missing_location_counterexample :
    initiateUpload (Except.ok { statusCode := 202, headers := [("Docker-Upload-Uuid", "u1")] })
      = Except.ok { base := "", query := [] } := by
  rfl

/-- C4 (amended): a failed POST exchange surfaces its error; an
unparseable `Location` value (one containing an ASCII control
character) makes `initiateUpload` return an error; but a missing
`Location` header is not detected: `Header.Get` yields `""`, which
parses successfully, so the call succeeds with an empty URL. -/
theorem initiateUpload_location_handling :
    (∀ e : GoError, initiateUpload (Except.error e) = Except.error e) ∧
    (∀ resp : HttpResponse, headerGet resp.headers "Location" = "" →
      initiateUpload (Except.ok resp) = Except.ok { base := "", query := [] }) ∧
    (∀ resp : HttpResponse, containsCtlChar (headerGet resp.headers "Location") = true →
      ∃ e : GoError, initiateUpload (Except.ok resp) = Except.error e) := by
  refine ⟨fun e => rfl, ?_, ?_⟩
  · intro resp h
    show goUrlParse (headerGet resp.headers "Location") = Except.ok { base := "", query := [] }
    rw [h]
    rfl
  · intro resp h
    refine ⟨GoError.other "net/url: invalid control character in URL", ?_⟩
    show goUrlParse (headerGet resp.headers "Location") = Except.error _
    simp [goUrlParse, h]

/-- Witness for C4 (amended), at a concrete transport error, a concrete
Location-free response, and a concrete response whose Location value
contains a control character. -/
theorem initiateUpload_location_handling_witness :
    initiateUpload (Except.error (GoError.other "post failed"))
      = Except.error (GoError.other "post failed") ∧
    (headerGet ([("Docker-Upload-Uuid", "u1")] : List (String × String)) "Location" = "" ∧
      initiateUpload (Except.ok { statusCode := 202, headers := [("Docker-Upload-Uuid", "u1")] })
        = Except.ok { base := "", query := [] }) ∧
    (containsCtlChar (headerGet ([("Location", "\x01bad")] : List (String × String)) "Location")
        = true ∧
      ∃ e : GoError,
        initiateUpload (Except.ok { statusCode := 202, headers := [("Location", "\x01bad")] })
          = Except.error e) := by
  refine ⟨initiateUpload_location_handling.1 _, ⟨by decide, ?_⟩, ⟨by decide, ?_⟩⟩
  · exact initiateUpload_location_handling.2.1
      { statusCode := 202, headers := [("Docker-Upload-Uuid", "u1")] } (by decide)
  · exact initiateUpload_location_handling.2.2
      { statusCode := 202, headers := [("Location", "\x01bad")] } (by decide)

/-! Helper lemmas about the chunk loop of `UploadBlobChunked`. -/

theorem range_map_succ_shift {α : Type _} (g : Nat → α) (n : Nat) :
    (List.range (n + 1)).map g = g 0 :: (List.range n).map (fun j => g (j + 1)) := by
  rw [List.range_succ_eq_map]
  simp [List.map_map, Function.comp]

theorem runChunks_all_ok (u : URL) (doR : Nat → Except GoError HttpResponse)
    (bs : List Nat) :
    ∀ (n ch : Nat), (∀ i, i < n → ∃ r, doR (ch + i) = Except.ok r) →
      runChunks u doR bs ch n =
        ((List.range n).map (fun j => patchRequest u bs (ch + j)), none) := by
  intro n
  induction n with
  | zero => intro ch _; simp [runChunks]
  | succ m ih =>
    intro ch h
    obtain ⟨r, hr⟩ := h 0 (Nat.succ_pos m)
    have hr' : doR ch = Except.ok r := by simpa using hr
    have hrest := ih (ch + 1) (fun i hi => by
      have h2 := h (i + 1) (Nat.succ_lt_succ hi)
      have h3 : ch + (i + 1) = ch + 1 + i := by omega
      exact ⟨h2.choose, h3 ▸ h2.choose_spec⟩)
    simp only [runChunks, hr', hrest]
    rw [List.range_succ_eq_map]
    simp only [List.map_cons, List.map_map, Nat.add_zero]
    refine congrArg (fun l => (patchRequest u bs ch :: l, none)) ?_
    refine List.map_congr_left (fun j _ => ?_)
    simp only [Function.comp]
    refine congrArg (patchRequest u bs) ?_
    omega

theorem runChunks_fail (u : URL) (doR : Nat → Except GoError HttpResponse)
    (bs : List Nat) :
    ∀ (k n ch : Nat) (e : GoError), k < n →
      (∀ i, i < k → ∃ r, doR (ch + i) = Except.ok r) →
      doR (ch + k) = Except.error e →
      runChunks u doR bs ch n =
        ((List.range (k + 1)).map (fun j => patchRequest u bs (ch + j)), some e) := by
  intro k
  induction k with
  | zero =>
    intro n ch e hk _ he
    match n, hk with
    | m + 1, _ =>
      have he' : doR ch = Except.error e := by simpa using he
      simp [runChunks, he', List.range_succ]
  | succ m ih =>
    intro n ch e hk hok he
    match n, hk with
    | n' + 1, hk =>
      obtain ⟨r, hr⟩ := hok 0 (Nat.succ_pos m)
      have hr' : doR ch = Except.ok r := by simpa using hr
      have hrest := ih n' (ch + 1) e (Nat.lt_of_succ_lt_succ hk)
        (fun i hi => by
          have h2 := hok (i + 1) (Nat.succ_lt_succ hi)
          have h3 : ch + (i + 1) = ch + 1 + i := by omega
          exact ⟨h2.choose, h3 ▸ h2.choose_spec⟩)
        (by have h3 : ch + (m + 1) = ch + 1 + m := by omega
            exact h3 ▸ he)
      simp only [runChunks, hr', hrest]
      conv_rhs => rw [range_map_succ_shift]
      simp only [Nat.add_zero]
      refine Prod.ext ?_ rfl
      refine congrArg (List.cons (patchRequest u bs ch)) ?_
      exact List.map_congr_left (fun j _ => congrArg (patchRequest u bs) (by omega))

/-- The trace of a chunked upload whose exchanges all succeed:
`contLength / chunkSize` PATCH requests followed by the finalizing PUT,
with no error. -/
theorem uploadBlobChunked_ok_trace (u : URL) (d : String) (bs : List Nat)
    (doR : Nat → Except GoError HttpResponse)
    (hL : chunkSize < bs.length)
    (hok : ∀ i, i ≤ bs.length / chunkSize → ∃ r, doR i = Except.ok r) :
    UploadBlobChunked (Except.ok u) doR d bs =
      ((List.range (bs.length / chunkSize)).map (patchRequest u bs)
        ++ [finalRequest u d bs], none) := by
  have hrun := runChunks_all_ok u doR bs (bs.length / chunkSize) 0
    (fun i hi => by simpa using hok i (Nat.le_of_lt hi))
  obtain ⟨r, hr⟩ := hok (bs.length / chunkSize) (Nat.le_refl _)
  simp only [UploadBlobChunked, if_neg (Nat.not_le.mpr hL), hrun, hr]
  simp [Nat.zero_add]

/-- The trace of a chunked upload whose `k`-th PATCH exchange fails
(`k` strictly before the final write): exactly the first `k + 1` PATCH
requests were issued and the error is returned. -/
theorem uploadBlobChunked_fail_patch (u : URL) (d : String) (bs : List Nat)
    (doR : Nat → Except GoError HttpResponse) (k : Nat) (e : GoError)
    (hL : chunkSize < bs.length) (hk : k < bs.length / chunkSize)
    (hok : ∀ i, i < k → ∃ r, doR i = Except.ok r)
    (he : doR k = Except.error e) :
    UploadBlobChunked (Except.ok u) doR d bs =
      ((List.range (k + 1)).map (patchRequest u bs), some e) := by
  have hrun := runChunks_fail u doR bs k (bs.length / chunkSize) 0 e hk
    (fun i hi => by simpa using hok i hi) (by simpa using he)
  simp only [UploadBlobChunked, if_neg (Nat.not_le.mpr hL), hrun]
  simp [Nat.zero_add]

/-- The trace of a chunked upload whose finalizing PUT exchange fails:
all PATCH requests and the final PUT were issued and the error is
returned. -/
theorem uploadBlobChunked_fail_final (u : URL) (d : String) (bs : List Nat)
    (doR : Nat → Except GoError HttpResponse) (e : GoError)
    (hL : chunkSize < bs.length)
    (hok : ∀ i, i < bs.length / chunkSize → ∃ r, doR i = Except.ok r)
    (he : doR (bs.length / chunkSize) = Except.error e) :
    UploadBlobChunked (Except.ok u) doR d bs =
      ((List.range (bs.length / chunkSize)).map (patchRequest u bs)
        ++ [finalRequest u d bs], some e) := by
  have hrun := runChunks_all_ok u doR bs (bs.length / chunkSize) 0
    (fun i hi => by simpa using hok i hi)
  simp only [UploadBlobChunked, if_neg (Nat.not_le.mpr hL), hrun, he]
  simp [Nat.zero_add]

/-- `patchRequest` written with the spec's formulas: the `i`-th partial
write covers `[i*chunkSize, (i+1)*chunkSize)`. -/
theorem patchRequest_eq (u : URL) (bs : List Nat) (i : Nat) :
    patchRequest u bs i =
      { method := "PATCH", url := u
        headers := [("Content-Type", "application/octet-stream"),
          ("Content-Length", toString chunkSize),
          ("Content-Range", toString (i * chunkSize) ++ "-" ++ toString ((i + 1) * chunkSize - 1))]
        body := (bs.drop (i * chunkSize)).take chunkSize } := by
  have h1 : i * chunkSize + chunkSize - i * chunkSize = chunkSize := by omega
  have h2 : i * chunkSize + chunkSize - 1 = (i + 1) * chunkSize - 1 := by
    have h3 : (i + 1) * chunkSize = i * chunkSize + chunkSize := by
      rw [Nat.add_mul, Nat.one_mul]
    omega
  simp only [patchRequest, goSlice, h1, h2]

/-- `finalRequest` written with the spec's formulas: the finalizing
write covers the remainder `[chunk*chunkSize, contLength)`. -/
theorem finalRequest_eq (u : URL) (d : String) (bs : List Nat) :
    finalRequest u d bs =
      { method := "PUT", url := setDigestParam u d
        headers := [("Content-Type", "application/octet-stream"),
          ("Content-Length", toString (bs.length % chunkSize)),
          ("Content-Range", toString (bs.length / chunkSize * chunkSize) ++ "-"
            ++ toString (bs.length - 1))]
        body := bs.drop (bs.length / chunkSize * chunkSize) } := by
  simp only [finalRequest, goSlice]
  rw [List.take_of_length_le (by simp)]

/-- Flattening the consecutive `chunkSize`-slices of a list recovers
its first `n * chunkSize` elements. -/
theorem flatten_chunk_slices (bs : List Nat) (cs : Nat) :
    ∀ n : Nat, ((List.range n).map (fun i => (bs.drop (i * cs)).take cs)).flatten
      = bs.take (n * cs) := by
  intro n
  induction n with
  | zero => simp
  | succ m ih =>
    rw [List.range_succ, List.map_append, List.flatten_append, ih]
    simp only [List.map_cons, List.map_nil, List.flatten_cons, List.flatten_nil,
      List.append_nil]
    rw [← List.take_add]
    refine congrArg (fun t => List.take t bs) ?_
    have h3 : (m + 1) * cs = m * cs + cs := by
      rw [Nat.add_mul, Nat.one_mul]
    omega

/-- C3: for a payload of at most `chunkSize` bytes the upload issues
exactly one write request — a PUT carrying the whole payload with the
digest attached as a query parameter — and no PATCH (partial) write. -/
theorem uploadBlobChunked_single_shot (u : URL) (d : String) (bs : List Nat)
    (doR : Nat → Except GoError HttpResponse) (hL : bs.length ≤ chunkSize) :
    (UploadBlobChunked (Except.ok u) doR d bs).1 =
      [{ method := "PUT", url := setDigestParam u d
         headers := [("Content-Type", "application/octet-stream")]
         body := bs }] ∧
    (∀ r, r ∈ (UploadBlobChunked (Except.ok u) doR d bs).1 → r.method = "PUT") ∧
    queryGet (setDigestParam u d).query "digest" = [d] := by
  have h1 : (UploadBlobChunked (Except.ok u) doR d bs).1 =
      [{ method := "PUT", url := setDigestParam u d
         headers := [("Content-Type", "application/octet-stream")]
         body := bs }] := by
    simp only [UploadBlobChunked, if_pos hL, UploadBlob]
    cases doR 0 <;> rfl
  refine ⟨h1, ?_, queryGet_querySet_self u.query "digest" d⟩
  intro r hr
  rw [h1] at hr
  simp only [List.mem_singleton] at hr
  rw [hr]

/-- Witness for C3 at a concrete 3-byte payload. -/
theorem uploadBlobChunked_single_shot_witness :
    ([1, 2, 3] : List Nat).length ≤ chunkSize ∧
    (UploadBlobChunked (Except.ok ({ base := "https://r.example" } : URL))
        (fun _ => Except.ok ({} : HttpResponse)) "sha256:ab" [1, 2, 3]).1 =
      [{ method := "PUT"
         url := { base := "https://r.example", query := [("digest", "sha256:ab")] }
         headers := [("Content-Type", "application/octet-stream")]
         body := [1, 2, 3] }] := by
  refine ⟨by decide, ?_⟩
  have h := (uploadBlobChunked_single_shot ({ base := "https://r.example" } : URL)
    "sha256:ab" [1, 2, 3] (fun _ => Except.ok ({} : HttpResponse)) (by decide)).1
  rw [h]
  rfl

/-- C2: for a payload longer than `chunkSize` whose exchanges all
succeed, the upload issues exactly `contLength / chunkSize` PATCH
writes in increasing order — the `i`-th carrying exactly the bytes
`[i*chunkSize, (i+1)*chunkSize)` (a full `chunkSize` of them) with
`Content-Range` `"start-(end-1)"` and `Content-Length` `chunkSize` —
followed by exactly one finalizing PUT carrying the remaining
`contLength % chunkSize` bytes with the digest as a query parameter
and a `Content-Range` starting right after the last partial range;
together the issued bodies are exactly the payload. -/
theorem uploadBlobChunked_chunk_layout (u : URL) (d : String) (bs : List Nat)
    (doR : Nat → Except GoError HttpResponse)
    (hL : chunkSize < bs.length)
    (hok : ∀ i, i ≤ bs.length / chunkSize → ∃ r, doR i = Except.ok r) :
    UploadBlobChunked (Except.ok u) doR d bs =
      ((List.range (bs.length / chunkSize)).map (fun i =>
        { method := "PATCH", url := u
          headers := [("Content-Type", "application/octet-stream"),
            ("Content-Length", toString chunkSize),
            ("Content-Range", toString (i * chunkSize) ++ "-"
              ++ toString ((i + 1) * chunkSize - 1))]
          body := (bs.drop (i * chunkSize)).take chunkSize }) ++
       [{ method := "PUT", url := setDigestParam u d
          headers := [("Content-Type", "application/octet-stream"),
            ("Content-Length", toString (bs.length % chunkSize)),
            ("Content-Range", toString (bs.length / chunkSize * chunkSize) ++ "-"
              ++ toString (bs.length - 1))]
          body := bs.drop (bs.length / chunkSize * chunkSize) }], none) ∧
    (∀ i, i < bs.length / chunkSize →
      ((bs.drop (i * chunkSize)).take chunkSize).length = chunkSize) ∧
    queryGet (setDigestParam u d).query "digest" = [d] ∧
    ((UploadBlobChunked (Except.ok u) doR d bs).1.map Request.body).flatten = bs := by
  have h := uploadBlobChunked_ok_trace u d bs doR hL hok
  refine ⟨?_, ?_, queryGet_querySet_self u.query "digest" d, ?_⟩
  · rw [h]
    refine Prod.ext ?_ rfl
    show (List.range (bs.length / chunkSize)).map (patchRequest u bs)
        ++ [finalRequest u d bs] = _
    rw [List.map_congr_left (fun i _ => patchRequest_eq u bs i), finalRequest_eq]
  · intro i hi
    have h1 : (i + 1) * chunkSize ≤ bs.length :=
      Nat.le_trans (Nat.mul_le_mul_right chunkSize hi)
        (Nat.div_mul_le_self bs.length chunkSize)
    have h2 : (i + 1) * chunkSize = i * chunkSize + chunkSize := by
      rw [Nat.add_mul, Nat.one_mul]
    simp only [List.length_take, List.length_drop]
    omega
  · have h1 : (UploadBlobChunked (Except.ok u) doR d bs).1 =
        (List.range (bs.length / chunkSize)).map (patchRequest u bs)
          ++ [finalRequest u d bs] := by rw [h]
    have hpb : (Request.body ∘ patchRequest u bs) =
        fun i => (bs.drop (i * chunkSize)).take chunkSize :=
      funext fun i => congrArg Request.body (patchRequest_eq u bs i)
    have hfb : (finalRequest u d bs).body = bs.drop (bs.length / chunkSize * chunkSize) :=
      congrArg Request.body (finalRequest_eq u d bs)
    rw [h1, List.map_append, List.map_map, hpb]
    simp only [List.map_cons, List.map_nil, List.flatten_append, List.flatten_cons,
      List.flatten_nil, List.append_nil, flatten_chunk_slices, hfb]
    exact List.take_append_drop _ bs

/-- Witness for C2: the spec's 20,000,000-byte scenario yields exactly
two PATCH ranges `0-8095999` and `8096000-16191999` and one finalizing
PUT covering `16192000-19999999` with the digest attached. -/
theorem uploadBlobChunked_chunk_layout_witness :
    chunkSize < (List.replicate 20000000 (0 : Nat)).length ∧
    UploadBlobChunked (Except.ok ({ base := "https://r.example/u" } : URL))
        (fun _ => Except.ok ({} : HttpResponse)) "sha256:ab" (List.replicate 20000000 (0 : Nat)) =
      ([{ method := "PATCH", url := { base := "https://r.example/u" }
          headers := [("Content-Type", "application/octet-stream"),
            ("Content-Length", "8096000"), ("Content-Range", "0-8095999")]
          body := List.replicate 8096000 0 },
        { method := "PATCH", url := { base := "https://r.example/u" }
          headers := [("Content-Type", "application/octet-stream"),
            ("Content-Length", "8096000"), ("Content-Range", "8096000-16191999")]
          body := List.replicate 8096000 0 },
        { method := "PUT"
          url := { base := "https://r.example/u", query := [("digest", "sha256:ab")] }
          headers := [("Content-Type", "application/octet-stream"),
            ("Content-Length", "3808000"), ("Content-Range", "16192000-19999999")]
          body := List.replicate 3808000 0 }], none) := by
  have hL : chunkSize < (List.replicate 20000000 (0 : Nat)).length := by
    simp only [List.length_replicate, chunkSize]
    omega
  refine ⟨hL, ?_⟩
  have h := (uploadBlobChunked_chunk_layout ({ base := "https://r.example/u" } : URL)
    "sha256:ab" (List.replicate 20000000 (0 : Nat))
    (fun _ => Except.ok ({} : HttpResponse)) hL
    (fun i _ => ⟨{}, rfl⟩)).1
  rw [h]
  simp only [List.length_replicate, List.drop_replicate, List.take_replicate]
  rfl

/-- C9: when the payload length is an exact nonzero multiple of the
chunk size (and exceeds it), the finalizing write is a zero-length
chunk: empty body, `Content-Length` `"0"`, and a `Content-Range`
`"L-(L-1)"` spanning zero bytes. -/
theorem uploadBlobChunked_exact_multiple (u : URL) (d : String) (bs : List Nat)
    (doR : Nat → Except GoError HttpResponse)
    (hL : chunkSize < bs.length) (hm : bs.length % chunkSize = 0)
    (hok : ∀ i, i ≤ bs.length / chunkSize → ∃ r, doR i = Except.ok r) :
    (UploadBlobChunked (Except.ok u) doR d bs).1.getLast? =
      some { method := "PUT", url := setDigestParam u d
             headers := [("Content-Type", "application/octet-stream"),
               ("Content-Length", toString (0 : Nat)),
               ("Content-Range", toString bs.length ++ "-" ++ toString (bs.length - 1))]
             body := [] } := by
  have h := uploadBlobChunked_ok_trace u d bs doR hL hok
  have h1 : (UploadBlobChunked (Except.ok u) doR d bs).1 =
      (List.range (bs.length / chunkSize)).map (patchRequest u bs)
        ++ [finalRequest u d bs] := by rw [h]
  rw [h1, List.getLast?_concat]
  refine congrArg some ?_
  have hdc : bs.length / chunkSize * chunkSize = bs.length :=
    Nat.div_mul_cancel (Nat.dvd_of_mod_eq_zero hm)
  rw [finalRequest_eq, hm, hdc, List.drop_length]

/-- Witness for C9 at a 16,192,000-byte payload (exactly two chunks):
the finalizing PUT has an empty body, `Content-Length` `"0"` and
`Content-Range` `"16192000-16191999"`. -/
theorem uploadBlobChunked_exact_multiple_witness :
    (chunkSize < (List.replicate 16192000 (0 : Nat)).length ∧
      (List.replicate 16192000 (0 : Nat)).length % chunkSize = 0) ∧
    (UploadBlobChunked (Except.ok ({ base := "https://r.example/u" } : URL))
        (fun _ => Except.ok ({} : HttpResponse)) "sha256:cd"
        (List.replicate 16192000 (0 : Nat))).1.getLast? =
      some { method := "PUT"
             url := { base := "https://r.example/u", query := [("digest", "sha256:cd")] }
             headers := [("Content-Type", "application/octet-stream"),
               ("Content-Length", "0"), ("Content-Range", "16192000-16191999")]
             body := [] } := by
  have hL : chunkSize < (List.replicate 16192000 (0 : Nat)).length := by
    simp only [List.length_replicate, chunkSize]
    omega
  have hm : (List.replicate 16192000 (0 : Nat)).length % chunkSize = 0 := by
    simp only [List.length_replicate, chunkSize]
  refine ⟨⟨hL, hm⟩, ?_⟩
  have h := uploadBlobChunked_exact_multiple ({ base := "https://r.example/u" } : URL)
    "sha256:cd" (List.replicate 16192000 (0 : Nat))
    (fun _ => Except.ok ({} : HttpResponse)) hL hm (fun i _ => ⟨{}, rfl⟩)
  simp only [List.length_replicate] at h
  rw [h]
  rfl

/-- C6: if the first failed exchange of a chunked upload is number `k`
(whether a PATCH, `k < chunk`, or the finalizing PUT, `k = chunk`), the
upload stops there: exactly the `k + 1` write requests issued so far
appear in the trace, no further partial or finalizing write is issued,
and the caller observes exactly that one error, unretried. -/
theorem uploadBlobChunked_aborts_on_failure (u : URL) (d : String) (bs : List Nat)
    (doR : Nat → Except GoError HttpResponse) (k : Nat) (e : GoError)
    (hL : chunkSize < bs.length) (hk : k ≤ bs.length / chunkSize)
    (hok : ∀ i, i < k → ∃ r, doR i = Except.ok r)
    (he : doR k = Except.error e) :
    (UploadBlobChunked (Except.ok u) doR d bs).2 = some e ∧
    (UploadBlobChunked (Except.ok u) doR d bs).1.length = k + 1 := by
  rcases Nat.lt_or_ge k (bs.length / chunkSize) with hlt | hge
  · have h := uploadBlobChunked_fail_patch u d bs doR k e hL hlt hok he
    rw [h]
    simp
  · have hke : k = bs.length / chunkSize := Nat.le_antisymm hk hge
    subst hke
    have h := uploadBlobChunked_fail_final u d bs doR e hL hok he
    rw [h]
    simp

/-- Witness for C6: with an 8,096,001-byte payload whose very first
PATCH exchange fails, the trace holds exactly that one request and the
upload returns exactly that error. -/
theorem uploadBlobChunked_aborts_on_failure_witness :
    (chunkSize < (List.replicate 8096001 (0 : Nat)).length ∧
      (0 : Nat) ≤ (List.replicate 8096001 (0 : Nat)).length / chunkSize) ∧
    (UploadBlobChunked (Except.ok ({ base := "https://r.example/u" } : URL))
        (fun _ => Except.error (GoError.other "peer rejected chunk")) "sha256:ef"
        (List.replicate 8096001 (0 : Nat))).2 = some (GoError.other "peer rejected chunk") ∧
    (UploadBlobChunked (Except.ok ({ base := "https://r.example/u" } : URL))
        (fun _ => Except.error (GoError.other "peer rejected chunk")) "sha256:ef"
        (List.replicate 8096001 (0 : Nat))).1.length = 1 := by
  have hL : chunkSize < (List.replicate 8096001 (0 : Nat)).length := by
    simp only [List.length_replicate, chunkSize]
    omega
  have h := uploadBlobChunked_aborts_on_failure ({ base := "https://r.example/u" } : URL)
    "sha256:ef" (List.replicate 8096001 (0 : Nat))
    (fun _ => Except.error (GoError.other "peer rejected chunk")) 0
    (GoError.other "peer rejected chunk") hL (Nat.zero_le _)
    (fun i hi => absurd hi (Nat.not_lt_zero i)) rfl
  exact ⟨⟨hL, Nat.zero_le _⟩, h.1, h.2⟩

/-- C1 concerns a code bug: the source never reads the `Location`
header of any intermediate response.  For any all-successful transport,
the entire trace of a chunked upload is independent of the response
contents (in particular of any rotated `Location` headers the peer
returns), and every issued request — every PATCH after the first as
well as the finalizing PUT — targets the initial session location
`u` (with only the digest parameter added for the PUT), never a
location obtained from the preceding response. -/
theorem uploadBlobChunked_reuses_initial_location (u : URL) (d : String) (bs : List Nat)
    (resp : Nat → HttpResponse) (hL : chunkSize < bs.length) :
    UploadBlobChunked (Except.ok u) (fun i => Except.ok (resp i)) d bs =
      UploadBlobChunked (Except.ok u) (fun _ => Except.ok ({} : HttpResponse)) d bs ∧
    ∀ r, r ∈ (UploadBlobChunked (Except.ok u) (fun i => Except.ok (resp i)) d bs).1 →
      r.url = u ∨ r.url = setDigestParam u d := by
  have h1 := uploadBlobChunked_ok_trace u d bs (fun i => Except.ok (resp i)) hL
    (fun i _ => ⟨resp i, rfl⟩)
  have h2 := uploadBlobChunked_ok_trace u d bs (fun _ => Except.ok ({} : HttpResponse)) hL
    (fun i _ => ⟨{}, rfl⟩)
  constructor
  · rw [h1, h2]
  · intro r hr
    have h3 : (UploadBlobChunked (Except.ok u) (fun i => Except.ok (resp i)) d bs).1 =
        (List.range (bs.length / chunkSize)).map (patchRequest u bs)
          ++ [finalRequest u d bs] := by rw [h1]
    rw [h3] at hr
    simp only [List.mem_append, List.mem_map, List.mem_singleton] at hr
    rcases hr with ⟨i, _, hi⟩ | hfin
    · left
      rw [← hi]
      rfl
    · right
      rw [hfin]
      rfl

/-- Witness for C1: an 8,096,001-byte upload against a peer that
rotates the session location on every response produces exactly the
same requests as a peer that returns empty responses — the rotated
locations are ignored. -/
theorem uploadBlobChunked_reuses_initial_location_witness :
    chunkSize < (List.replicate 8096001 (0 : Nat)).length ∧
    UploadBlobChunked (Except.ok ({ base := "https://r.example/u" } : URL))
        (fun i => Except.ok ({ statusCode := 202,
                               headers := [("Location", "https://rotated.example/session/" ++ toString i)] }))
        "sha256:ab" (List.replicate 8096001 (0 : Nat)) =
      UploadBlobChunked (Except.ok ({ base := "https://r.example/u" } : URL))
        (fun _ => Except.ok ({} : HttpResponse)) "sha256:ab"
        (List.replicate 8096001 (0 : Nat)) := by
  have hL : chunkSize < (List.replicate 8096001 (0 : Nat)).length := by
    simp only [List.length_replicate, chunkSize]
    omega
  exact ⟨hL, (uploadBlobChunked_reuses_initial_location
    ({ base := "https://r.example/u" } : URL) "sha256:ab"
    (List.replicate 8096001 (0 : Nat))
    (fun i => ({ statusCode := 202,
                 headers := [("Location", "https://rotated.example/session/" ++ toString i)] }))
    hL).1⟩

end DockerRegistryClient
